import Mathlib

/-!
Shallow embedding of the simulation core of `pirx.py`.

Numeric model: the Python code computes with IEEE doubles; the embedding uses
exact rationals (ℚ), the standard idealization.  The only irrational quantity
the source ever produces is `euclidean = math.sqrt(x**2 + y**2)` stored in the
`v` field of the `XYValue` named tuple; every downstream use of `v` is either
`v**2` (in `gravity_force`) or the comparison `v < planet.radius` (the
destruction test), both of which are expressed exactly through the square
`vSq = x*x + y*y` (for `0 ≤ v`, `v < r ↔ 0 < r ∧ v² < r²`).

Failure model: Python raises `ZeroDivisionError` on float division by zero
(`1.0 / distance.v**2` when the two positions coincide, and
`forcex / planet1.mass` when a planet has mass 0), and `list.remove` raises
`ValueError` when its argument is not in the list.  These are modelled with
`Except Err`.  Python object identity (default `==` on `Planet`/`SpaceShip`
objects, used by `planet1 == planet2` and by `list.remove`) is modelled by
tagging list elements with their index (`tag_from`), which is faithful because
the source never aliases one body object at two places of a list.

The pygame colour fields and the rendering classes are presentation-only and
are not part of the embedded state.
-/

namespace Pirx

/-- Runtime failures of the embedded code: `zeroDivision` models Python's
`ZeroDivisionError`, `valueError` models `list.remove` on an absent element,
`indexError` models indexing an empty list. -/
inductive Err where
  | zeroDivision
  | valueError
  | indexError
deriving DecidableEq, Repr

/-- `Planet.__init__(position, mass, radius, speed)` (the pygame colour field
is presentation-only and omitted). -/
structure Planet where
  position : ℚ × ℚ
  mass : ℚ
  radius : ℚ
  speed : ℚ × ℚ
deriving DecidableEq, Repr

/-- `SpaceShip.__init__(position, speed, rgb)`; the constructor fixes
`radius = 2` and `mass = 1.0`; the rgb/colour fields are presentation-only
and omitted. -/
structure SpaceShip where
  position : ℚ × ℚ
  speed : ℚ × ℚ
  radius : ℚ
  mass : ℚ
deriving DecidableEq, Repr

/-- The `SpaceShip` constructor with its fixed radius and mass. -/
def mkSpaceShip (position speed : ℚ × ℚ) : SpaceShip :=
  { position := position, speed := speed, radius := 2, mass := 1 }

/-- The named tuple `XYValue(x, y, v)` returned by `World.distance`; the
euclidean field `v = sqrt(x² + y²)` is carried as its square `vSq` (see the
file comment). -/
structure XYValue where
  x : ℚ
  y : ℚ
  vSq : ℚ
deriving DecidableEq, Repr

/-- `World`: planets, spaceships and the `deferred_actions` queue.  A queued
`DestroyShipLater` holds a reference to a ship object; the reference is
modelled by the ship's index in the spaceship list (object identity). -/
structure World where
  planets : List Planet
  spaceships : List SpaceShip
  deferred_actions : List Nat
deriving DecidableEq, Repr

/-- `World.distance(obj1, obj2)`: componentwise difference of the two
positions together with (the square of) the euclidean norm. -/
def distance (pos1 pos2 : ℚ × ℚ) : XYValue :=
  { x := pos1.1 - pos2.1
    y := pos1.2 - pos2.2
    vSq := (pos1.1 - pos2.1) * (pos1.1 - pos2.1) + (pos1.2 - pos2.2) * (pos1.2 - pos2.2) }

/-- `math.copysign(m, s)`: the absolute value of `m` carrying the sign of `s`;
Python's `+0.0` counts as positive (and `-0.0` cannot arise from exact
subtraction of equal rationals), so `s = 0` gives `|m|`. -/
def copysign (m s : ℚ) : ℚ :=
  if s < 0 then -|m| else |m|

/-- `World.gravity_force(obj1, obj2, distance)`:
`copysign(1.0 / distance.v**2 * obj1.mass * obj2.mass, distance.x)` per axis;
the division raises `ZeroDivisionError` when the positions coincide. -/
def gravity_force (mass1 mass2 : ℚ) (d : XYValue) : Except Err (ℚ × ℚ) :=
  if d.vSq = 0 then .error .zeroDivision
  else .ok (copysign (1 / d.vSq * mass1 * mass2) d.x,
            copysign (1 / d.vSq * mass1 * mass2) d.y)

/-- The destruction test `distance.v < planet.radius`, expressed through the
square of the euclidean value: `sqrt(vSq) < r ↔ 0 < r ∧ vSq < r²`. -/
def insideQ (radius : ℚ) (d : XYValue) : Bool :=
  decide (0 < radius ∧ d.vSq < radius * radius)

/-- The inner planet loop of `World.simulate_ships` for one (already moved)
ship: the destruction test is made before the force for the pair is added,
and the per-planet forces are accumulated.  `idx` is the identity of the ship
(the index used by the queued `DestroyShipLater`). -/
def ship_loop (ship : SpaceShip) (idx : Nat) :
    List Planet → ℚ × ℚ → List Nat → Except Err ((ℚ × ℚ) × List Nat)
  | [], f, q => .ok (f, q)
  | planet :: rest, f, q =>
    let d := distance planet.position ship.position
    let q2 := if insideQ planet.radius d then q ++ [idx] else q
    match gravity_force planet.mass ship.mass d with
    | .error e => .error e
    | .ok force => ship_loop ship idx rest (f.1 + force.1, f.2 + force.2) q2

/-- The outer loop of `World.simulate_ships`: each ship first integrates its
position with its pre-update speed, then accumulates the planet forces (and
destruction requests), then updates its speed (the source adds the force to
the speed directly, without dividing by the ship's mass). -/
def simulate_ships_go (planets : List Planet) :
    Nat → List SpaceShip → Except Err (List SpaceShip × List Nat)
  | _, [] => .ok ([], [])
  | idx, ship :: rest =>
    let moved : SpaceShip :=
      { ship with position := (ship.position.1 + ship.speed.1, ship.position.2 + ship.speed.2) }
    match ship_loop moved idx planets (0, 0) [] with
    | .error e => .error e
    | .ok (f, q) =>
      let ship2 : SpaceShip :=
        { moved with speed := (moved.speed.1 + f.1, moved.speed.2 + f.2) }
      match simulate_ships_go planets (idx + 1) rest with
      | .error e => .error e
      | .ok (rest2, q2) => .ok (ship2 :: rest2, q ++ q2)

/-- `World.simulate_ships`, producing the updated ships and the destruction
requests queued during the pass (in queue order). -/
def simulate_ships (planets : List Planet) (ships : List SpaceShip) :
    Except Err (List SpaceShip × List Nat) :=
  simulate_ships_go planets 0 ships

/-- Tag every element of a list with its index, starting from `n`; this models
Python object identity for list elements. -/
def tag_from {α : Type} : Nat → List α → List (Nat × α)
  | _, [] => []
  | n, x :: rest => (n, x) :: tag_from (n + 1) rest

/-- `list.remove(x)`: remove the first element with the given identity, or
raise `ValueError` when no element has it. -/
def removeFirst (tag : Nat) : List (Nat × SpaceShip) → Except Err (List (Nat × SpaceShip))
  | [] => .error .valueError
  | x :: rest =>
    if x.1 = tag then .ok rest
    else
      match removeFirst tag rest with
      | .error e => .error e
      | .ok rest2 => .ok (x :: rest2)

/-- `World.process_waiting`: run every queued `DestroyShipLater.do` in queue
order; each removes its ship from the ship list by identity. -/
def process_waiting : List Nat → List (Nat × SpaceShip) → Except Err (List (Nat × SpaceShip))
  | [], ships => .ok ships
  | tag :: queue, ships =>
    match removeFirst tag ships with
    | .error e => .error e
    | .ok ships2 => process_waiting queue ships2

/-- The inner loop body of `World.simulate_planets` for the outer planet of
identity `i`: iterate over all (identity-tagged) planets, skip the pair with
`planet1 == planet2` (object identity, `i = j`), and for every other pair add
`gravity_force(planet1, planet2, distance(planet2, planet1)) / planet1.mass`
to `planet1`'s speed.  The division raises `ZeroDivisionError` on a massless
planet. -/
def planet_loop (i : Nat) : List (Nat × Planet) → Planet → Except Err Planet
  | [], p1 => .ok p1
  | (j, p2) :: rest, p1 =>
    if i = j then planet_loop i rest p1
    else
      let d := distance p2.position p1.position
      match gravity_force p1.mass p2.mass d with
      | .error e => .error e
      | .ok f =>
        if p1.mass = 0 then .error .zeroDivision
        else
          planet_loop i rest
            { p1 with speed := (p1.speed.1 + f.1 / p1.mass, p1.speed.2 + f.2 / p1.mass) }

/-- The outer loop of `World.simulate_planets` over `itertools.product`:
planet positions are only read during the double loop, and only the outer
planet's speed is written, so the outer iteration is a map. -/
def planets_outer (tagged : List (Nat × Planet)) :
    List (Nat × Planet) → Except Err (List Planet)
  | [] => .ok []
  | (i, p) :: rest =>
    match planet_loop i tagged p with
    | .error e => .error e
    | .ok p2 =>
      match planets_outer tagged rest with
      | .error e => .error e
      | .ok rest2 => .ok (p2 :: rest2)

/-- `World.move_planets`: integrate every planet's position with its (just
updated) speed. -/
def move_planets (planets : List Planet) : List Planet :=
  planets.map fun p =>
    { p with position := (p.position.1 + p.speed.1, p.position.2 + p.speed.2) }

/-- `World.simulate_planets`: the pairwise speed update followed by
`move_planets`. -/
def simulate_planets (planets : List Planet) : Except Err (List Planet) :=
  match planets_outer (tag_from 0 planets) (tag_from 0 planets) with
  | .error e => .error e
  | .ok kicked => .ok (move_planets kicked)

/-- `World.tick`: simulate the ships, drain the destruction queue (requests
already pending plus the ones queued this tick), then simulate the planets;
the queue is left empty. -/
def tick (w : World) : Except Err World :=
  match simulate_ships w.planets w.spaceships with
  | .error e => .error e
  | .ok (ships1, queue) =>
    match process_waiting (w.deferred_actions ++ queue) (tag_from 0 ships1) with
    | .error e => .error e
    | .ok tagged =>
      match simulate_planets w.planets with
      | .error e => .error e
      | .ok planets2 =>
        .ok { planets := planets2, spaceships := tagged.map Prod.snd, deferred_actions := [] }

/-- `tick` iterated `n` times. -/
def tickN : Nat → World → Except Err World
  | 0, w => .ok w
  | n + 1, w =>
    match tickN n w with
    | .error e => .error e
    | .ok w2 => tick w2

/-- The horizon length hard-wired in `Simulation.__init__`. -/
def future_step_count : Nat := 500

/-- `self._futures.append(copy.deepcopy(self._futures[-1]).tick())`: clone the
last snapshot, step it, append it. -/
def sim_extend (futures : List World) : Except Err (List World) :=
  match futures.getLast? with
  | none => .error .indexError
  | some w =>
    match tick w with
    | .error e => .error e
    | .ok w2 => .ok (futures ++ [w2])

/-- `Simulation.__init__` with the horizon as a parameter (the source fixes it
to `future_step_count = 500`): seed the buffer with the initial world and
extend it `n` times. -/
def sim_init (w : World) : Nat → Except Err (List World)
  | 0 => .ok [w]
  | n + 1 =>
    match sim_init w n with
    | .error e => .error e
    | .ok futures => sim_extend futures

/-- `Simulation.__init__` exactly as in the source. -/
def simulation_init (w : World) : Except Err (List World) :=
  sim_init w future_step_count

/-- `Simulation.tick`: append a stepped clone of the last snapshot, then pop
the front snapshot. -/
def sim_tick (futures : List World) : Except Err (List World) :=
  match sim_extend futures with
  | .error e => .error e
  | .ok futures2 => .ok (futures2.drop 1)

/-- `Simulation.current_world` (property): the front snapshot. -/
def current_world (futures : List World) : Option World :=
  futures.head?

/-- `Simulation.futures` (property): every snapshot after the front one. -/
def sim_futures (futures : List World) : List World :=
  futures.drop 1

/-- `sim_tick` iterated `k` times. -/
def sim_tickN : Nat → List World → Except Err (List World)
  | 0, l => .ok l
  | k + 1, l =>
    match sim_tickN k l with
    | .error e => .error e
    | .ok l2 => sim_tick l2

/-- The position a ship holds when the destruction test and the force
computation read it: its stored position already integrated with its
pre-update speed. -/
def moved_position (s : SpaceShip) : ℚ × ℚ :=
  (s.position.1 + s.speed.1, s.position.2 + s.speed.2)

/-- How many planets a ship is strictly inside of at test time. -/
def nInside (planets : List Planet) (s : SpaceShip) : Nat :=
  planets.countP fun p => insideQ p.radius (distance p.position (moved_position s))

/-- A ship is doomed when it is strictly inside at least one planet's radius
at test time. -/
def doomed (planets : List Planet) (s : SpaceShip) : Bool :=
  planets.any fun p => insideQ p.radius (distance p.position (moved_position s))

/-- The destruction queue `simulate_ships` produces, described ship by ship:
the ship of identity `i` contributes one entry per planet it is inside of. -/
def qSpec (planets : List Planet) : Nat → List SpaceShip → List Nat
  | _, [] => []
  | i, s :: rest => List.replicate (nInside planets s) i ++ qSpec planets (i + 1) rest

/-- The speed increment planet `p2` contributes to planet `p1` in one tick,
written as the spec's closed formula: per-axis magnitude
`p1.mass * p2.mass / d²` with the sign of the axis difference, divided by
`p1.mass` (total rational division; it coincides with the code whenever the
code does not fault). -/
def pair_kick (p1 p2 : Planet) : ℚ × ℚ :=
  (copysign (1 / (distance p2.position p1.position).vSq * p1.mass * p2.mass)
      (distance p2.position p1.position).x / p1.mass,
   copysign (1 / (distance p2.position p1.position).vSq * p1.mass * p2.mass)
      (distance p2.position p1.position).y / p1.mass)

/-- The total speed increment planet `p` (of identity `i`) receives from a
tagged planet list in one tick: the sum of `pair_kick` over all pairs with a
different identity. -/
def kick_total (i : Nat) (p : Planet) : List (Nat × Planet) → ℚ × ℚ
  | [] => (0, 0)
  | (j, p2) :: rest =>
    if i = j then kick_total i p rest
    else ((pair_kick p p2).1 + (kick_total i p rest).1,
          (pair_kick p p2).2 + (kick_total i p rest).2)

/-- A copy of a world with every ship removed (and, with them, the pending
destruction requests that reference ships). -/
def strip_ships (w : World) : World :=
  { planets := w.planets, spaceships := [], deferred_actions := [] }

/-- No two distinct planets of the list occupy the same position. -/
def planets_distinct : List Planet → Bool
  | [] => true
  | p :: rest =>
    rest.all (fun q => decide (p.position ≠ q.position)) && planets_distinct rest

/-- No planet position coincides with any ship's post-integration position. -/
def ships_clear (planets : List Planet) (ships : List SpaceShip) : Bool :=
  ships.all fun s => planets.all fun p => decide (p.position ≠ moved_position s)

/-- Every planet of the list has nonzero mass. -/
def masses_nonzero (planets : List Planet) : Bool :=
  planets.all fun p => decide (p.mass ≠ 0)

/-- No two distinct planets coincide and no planet position equals any ship's
stored (pre-integration) position: the precondition exactly as claimed. -/
def entry_positions_ok (w : World) : Bool :=
  planets_distinct w.planets &&
    w.spaceships.all fun s => w.planets.all fun p => decide (p.position ≠ s.position)

/-! ### Concrete worlds used by counterexamples and witnesses -/

/-- The planet of the spec's test scenario: position (400, 300), mass 100,
radius 20, velocity (0, 0). -/
def scenario_planet : Planet :=
  { position := (400, 300), mass := 100, radius := 20, speed := (0, 0) }

/-- The spec's test scenario: one planet, one ship at (450, 300) at rest. -/
def scenario_world : World :=
  { planets := [scenario_planet], spaceships := [mkSpaceShip (450, 300) (0, 0)],
    deferred_actions := [] }

/-- Two planets for pinning down the planet-planet force magnitude: masses 10
and 20 at distance 10, all at rest. -/
def c1_planets : List Planet :=
  [{ position := (0, 0), mass := 10, radius := 1, speed := (0, 0) },
   { position := (10, 0), mass := 20, radius := 1, speed := (0, 0) }]

/-- A world whose single ship sits strictly inside the radii of two planets at
once, with all positions pairwise distinct and all masses nonzero. -/
def crash_world : World :=
  { planets := [{ position := (0, 0), mass := 1, radius := 10, speed := (0, 0) },
                { position := (4, 0), mass := 1, radius := 10, speed := (0, 0) }],
    spaceships := [mkSpaceShip (2, 0) (0, 0)], deferred_actions := [] }

/-- Two planets at distinct positions, one of them massless. -/
def massless_world : World :=
  { planets := [{ position := (0, 0), mass := 0, radius := 1, speed := (0, 0) },
                { position := (5, 0), mass := 1, radius := 1, speed := (0, 0) }],
    spaceships := [], deferred_actions := [] }

/-- One planet and one ship whose position integration moves it exactly onto
the planet this tick, although all stored positions are pairwise distinct. -/
def sweep_world : World :=
  { planets := [{ position := (0, 0), mass := 1, radius := 1, speed := (0, 0) }],
    spaceships := [mkSpaceShip (1, 0) (-1, 0)], deferred_actions := [] }

/-- One planet and one ship that falls inside its radius this tick. -/
def doom_world : World :=
  { planets := [{ position := (0, 0), mass := 1, radius := 10, speed := (0, 0) }],
    spaceships := [mkSpaceShip (3, 0) (0, 0)], deferred_actions := [] }

/-- The empty world: no planets, no ships, no pending requests. -/
def empty_world : World :=
  { planets := [], spaceships := [], deferred_actions := [] }

/-! ### Claims -/

/-- C1, counterexample.  The claim says the planet-planet force carries an
extra damping factor of 1/10, so with masses 10 and 20 at distance 10 the
first planet's per-axis speed gain would be (1/10)·(10·20/10²)/10 = 1/50.
The code has no damping factor: `simulate_planets` gives it speed
(1/5, 1/5), and 1/5 ≠ 1/50. -/
theorem claim_C1_counterexample :
    (simulate_planets c1_planets).map (List.map Planet.speed) =
      .ok [(1/5, 1/5), (-(1/10), 1/10)] ∧ ((1/5 : ℚ)) ≠ 1/50 := by
  constructor
  · norm_num [c1_planets, simulate_planets, planets_outer, planet_loop, tag_from,
      distance, gravity_force, copysign, move_planets, Except.map]
  · norm_num

/-- C2, counterexample.  The claim predicts ship velocity (-4.0, 0) after one
step of the scenario world.  The code gives (-1/25, 1/25) = (-0.04, +0.04):
the magnitude is 100/2500 = 0.04, not 4.0, and the y-axis difference is 0, so
`copysign` yields the full positive magnitude on the y axis, not 0. -/
theorem claim_C2_counterexample :
    (tick scenario_world).map (fun w => w.spaceships.map SpaceShip.speed) =
      .ok [(-(1/25), 1/25)] ∧
    (Except.ok [((-(1/25) : ℚ), (1/25 : ℚ))] : Except Err (List (ℚ × ℚ))) ≠
      .ok [(-4, 0)] := by
  constructor
  · norm_num [tick, scenario_world, scenario_planet, mkSpaceShip, simulate_ships,
      simulate_ships_go, ship_loop, distance, gravity_force, insideQ, copysign,
      process_waiting, removeFirst, tag_from, simulate_planets, planets_outer,
      planet_loop, move_planets, Except.map]
  · norm_num [Prod.ext_iff]

/-- C2, amended.  One step of the scenario world leaves the ship's position
at (450, 300) (integrated with its zero pre-update velocity) and sets its
velocity to (-1/25, 1/25) = (-0.04, +0.04): per-axis magnitude
100·1/2500 with a negative sign on x (dx = -50) and a positive sign on y
(dy = 0, and `copysign` treats 0 as positive). -/
theorem claim_C2_amended :
    tick scenario_world =
      .ok { planets := [scenario_planet],
            spaceships := [{ position := (450, 300), speed := (-(1/25), 1/25),
                             radius := 2, mass := 1 }],
            deferred_actions := [] } := by
  norm_num [tick, scenario_world, scenario_planet, mkSpaceShip, simulate_ships,
    simulate_ships_go, ship_loop, distance, gravity_force, insideQ, copysign,
    process_waiting, removeFirst, tag_from, simulate_planets, planets_outer,
    planet_loop, move_planets]

/-- C3.  A ship strictly inside the radii of two planets is queued for
destruction twice in one step; draining the queue then removes it once and
the second removal finds it absent and fails (`list.remove` raises
`ValueError`), so `step` aborts instead of completing normally. -/
theorem claim_C3_failing : tick crash_world = .error .valueError := by
  norm_num [tick, crash_world, mkSpaceShip, simulate_ships,
    simulate_ships_go, ship_loop, distance, gravity_force, insideQ, copysign,
    process_waiting, removeFirst, tag_from, simulate_planets, planets_outer,
    planet_loop, move_planets]

/-- C9, counterexample.  Three worlds satisfying the claim's precondition (all
planet and ship positions pairwise distinct) on which `step` nevertheless
fails: a massless planet makes the `force / planet1.mass` division fault even
though every distance is positive; a ship whose position integration lands it
exactly on a planet makes `1/d²` fault although the stored positions were
distinct; and the double-destruction world fails with `ValueError` even with
positive distances and nonzero masses, so "step returns normally" is false
too. -/
theorem claim_C9_counterexample :
    (entry_positions_ok massless_world = true ∧
      tick massless_world = .error .zeroDivision) ∧
    (entry_positions_ok sweep_world = true ∧
      tick sweep_world = .error .zeroDivision) ∧
    (entry_positions_ok crash_world = true ∧
      masses_nonzero crash_world.planets = true ∧
      tick crash_world = .error .valueError) := by
  refine ⟨⟨?_, ?_⟩, ⟨?_, ?_⟩, ?_, ?_, ?_⟩
  · norm_num [entry_positions_ok, planets_distinct, massless_world, Prod.ext_iff]
  · norm_num [tick, massless_world, simulate_ships, simulate_ships_go,
      process_waiting, tag_from, simulate_planets, planets_outer, planet_loop,
      distance, gravity_force, copysign, move_planets]
  · norm_num [entry_positions_ok, planets_distinct, sweep_world, mkSpaceShip,
      Prod.ext_iff]
  · norm_num [tick, sweep_world, mkSpaceShip, simulate_ships, simulate_ships_go,
      ship_loop, distance, gravity_force, insideQ, copysign, process_waiting,
      removeFirst, tag_from, simulate_planets, planets_outer, planet_loop,
      move_planets]
  · norm_num [entry_positions_ok, planets_distinct, crash_world, mkSpaceShip,
      Prod.ext_iff]
  · norm_num [masses_nonzero, crash_world]
  · norm_num [tick, crash_world, mkSpaceShip, simulate_ships,
      simulate_ships_go, ship_loop, distance, gravity_force, insideQ, copysign,
      process_waiting, removeFirst, tag_from, simulate_planets, planets_outer,
      planet_loop, move_planets]


lemma abs_copysign (m s : ℚ) : |copysign m s| = |m| := by
  unfold copysign
  split <;> simp

lemma copysign_of_not_neg {s : ℚ} (m : ℚ) (h : ¬ s < 0) : copysign m s = |m| := by
  unfold copysign
  exact if_neg h

lemma vSq_ne_zero {pos1 pos2 : ℚ × ℚ} (h : pos1 ≠ pos2) : (distance pos1 pos2).vSq ≠ 0 := by
  intro hz0
  have hz : (pos1.1 - pos2.1) * (pos1.1 - pos2.1) + (pos1.2 - pos2.2) * (pos1.2 - pos2.2) = 0 := hz0
  apply h
  have h1 : (pos1.1 - pos2.1) * (pos1.1 - pos2.1) = 0 := by nlinarith [mul_self_nonneg (pos1.1 - pos2.1), mul_self_nonneg (pos1.2 - pos2.2)]
  have h2 : (pos1.2 - pos2.2) * (pos1.2 - pos2.2) = 0 := by nlinarith [mul_self_nonneg (pos1.1 - pos2.1), mul_self_nonneg (pos1.2 - pos2.2)]
  have e1 : pos1.1 = pos2.1 := by have := mul_self_eq_zero.mp h1; linarith
  have e2 : pos1.2 = pos2.2 := by have := mul_self_eq_zero.mp h2; linarith
  exact Prod.ext e1 e2

lemma vSq_pos {pos1 pos2 : ℚ × ℚ} (h : pos1 ≠ pos2) : 0 < (distance pos1 pos2).vSq := by
  have hne := vSq_ne_zero h
  have hnn : 0 ≤ (distance pos1 pos2).vSq := by
    show 0 ≤ (pos1.1 - pos2.1) * (pos1.1 - pos2.1) + (pos1.2 - pos2.2) * (pos1.2 - pos2.2)
    have h1 := mul_self_nonneg (pos1.1 - pos2.1)
    have h2 := mul_self_nonneg (pos1.2 - pos2.2)
    linarith
  exact lt_of_le_of_ne hnn (Ne.symm hne)

theorem claim_C10 (pos1 pos2 : ℚ × ℚ) (m1 m2 : ℚ) (hm1 : 0 < m1) (hm2 : 0 < m2)
    (hne : pos1 ≠ pos2) :
    ∃ f, gravity_force m1 m2 (distance pos1 pos2) = .ok f ∧
      |f.1| = m1 * m2 / (distance pos1 pos2).vSq ∧
      |f.2| = m1 * m2 / (distance pos1 pos2).vSq ∧
      (pos1.1 = pos2.1 → f.1 = m1 * m2 / (distance pos1 pos2).vSq ∧ 0 < f.1) ∧
      (pos1.2 = pos2.2 → f.2 = m1 * m2 / (distance pos1 pos2).vSq ∧ 0 < f.2) := by
  have hv := vSq_ne_zero hne
  have hvp := vSq_pos hne
  set d := distance pos1 pos2 with hd
  have hvp2 : (0 : ℚ) < m1 * m2 / d.vSq := div_pos (mul_pos hm1 hm2) hvp
  have hM : |1 / d.vSq * m1 * m2| = m1 * m2 / d.vSq := by
    rw [abs_of_pos (mul_pos (mul_pos (one_div_pos.mpr hvp) hm1) hm2)]
    field_simp
  refine ⟨(copysign (1 / d.vSq * m1 * m2) d.x, copysign (1 / d.vSq * m1 * m2) d.y), ?_, ?_, ?_, ?_, ?_⟩
  · rw [gravity_force, if_neg hv]
  · rw [abs_copysign, hM]
  · rw [abs_copysign, hM]
  · intro hx
    have hdx : d.x = 0 := by rw [hd]; unfold distance; simp [hx]
    rw [hdx, copysign_of_not_neg _ (lt_irrefl 0), hM]
    exact ⟨rfl, hvp2⟩
  · intro hy
    have hdy : d.y = 0 := by rw [hd]; unfold distance; simp [hy]
    rw [hdy, copysign_of_not_neg _ (lt_irrefl 0), hM]
    exact ⟨rfl, hvp2⟩



/-- Inversion of a successful `tick` into its three phases. -/
lemma tick_inv {w w2 : World} (h : tick w = .ok w2) :
    ∃ ships1 queue tagged planets2,
      simulate_ships w.planets w.spaceships = .ok (ships1, queue) ∧
      process_waiting (w.deferred_actions ++ queue) (tag_from 0 ships1) = .ok tagged ∧
      simulate_planets w.planets = .ok planets2 ∧
      w2 = { planets := planets2, spaceships := tagged.map Prod.snd,
             deferred_actions := [] } := by
  unfold tick at h
  cases hs : simulate_ships w.planets w.spaceships with
  | error e => rw [hs] at h; cases h
  | ok pair =>
    obtain ⟨ships1, queue⟩ := pair
    rw [hs] at h
    dsimp only at h
    cases hp : process_waiting (w.deferred_actions ++ queue) (tag_from 0 ships1) with
    | error e => rw [hp] at h; cases h
    | ok tagged =>
      rw [hp] at h
      cases hq : simulate_planets w.planets with
      | error e => rw [hq] at h; cases h
      | ok planets2 =>
        rw [hq] at h
        exact ⟨ships1, queue, tagged, planets2, rfl, hp, rfl, (Except.ok.inj h).symm⟩



/-- The world `doom_world` becomes after one tick: the ship was destroyed. -/
def doom_result : World :=
  { planets := [{ position := (0, 0), mass := 1, radius := 10, speed := (0, 0) }],
    spaceships := [], deferred_actions := [] }

/-- C8.  A completing step factors into the fixed phase order: the ship pass
runs against the planets' pre-tick positions and produces the updated ships
plus the tick's destruction requests; the queue (pending requests first) is
drained next, fixing the surviving ships; only then is the planet phase run,
again from the pre-tick planet list, to produce the new planets; and the
pending-destruction list of the resulting world is empty. -/
theorem claim_C8 (w w2 : World) (h : tick w = .ok w2) :
    w2.deferred_actions = [] ∧
    ∃ ships1 queue tagged,
      simulate_ships w.planets w.spaceships = .ok (ships1, queue) ∧
      process_waiting (w.deferred_actions ++ queue) (tag_from 0 ships1) = .ok tagged ∧
      w2.spaceships = tagged.map Prod.snd ∧
      simulate_planets w.planets = .ok w2.planets := by
  obtain ⟨s1, q, t, p2, hs, hp, hq, rfl⟩ := tick_inv h
  exact ⟨rfl, s1, q, t, hs, hp, rfl, hq⟩

/-- Witness for C8 at `doom_world`. -/
theorem claim_C8_witness :
    doom_result.deferred_actions = [] ∧
    ∃ ships1 queue tagged,
      simulate_ships doom_world.planets doom_world.spaceships = .ok (ships1, queue) ∧
      process_waiting (doom_world.deferred_actions ++ queue) (tag_from 0 ships1) = .ok tagged ∧
      doom_result.spaceships = tagged.map Prod.snd ∧
      simulate_planets doom_world.planets = .ok doom_result.planets :=
  claim_C8 doom_world doom_result (by
    norm_num [tick, doom_world, doom_result, mkSpaceShip, simulate_ships,
      simulate_ships_go, ship_loop, distance, gravity_force, insideQ, copysign,
      process_waiting, removeFirst, tag_from, simulate_planets, planets_outer,
      planet_loop, move_planets])

/-- One completing tick commutes with removing all ships: the planet phase
reads only the planet list. -/
lemma tick_strip {w w2 : World} (h : tick w = .ok w2) :
    tick (strip_ships w) = .ok (strip_ships w2) := by
  obtain ⟨s1, q, t, p2, hs, hp, hq, rfl⟩ := tick_inv h
  show tick { planets := w.planets, spaceships := [], deferred_actions := [] } = _
  unfold tick
  simp only [simulate_ships, simulate_ships_go, tag_from, List.nil_append,
    process_waiting, hq]
  rfl



/-- `tickN` commutes with removing all ships. -/
lemma tickN_strip : ∀ {n : Nat} {w w2 : World}, tickN n w = .ok w2 →
    tickN n (strip_ships w) = .ok (strip_ships w2) := by
  intro n
  induction n with
  | zero =>
    intro w w2 h
    cases Except.ok.inj h
    rfl
  | succ n ih =>
    intro w w2 h
    unfold tickN at h ⊢
    cases ht : tickN n w with
    | error e => rw [ht] at h; cases h
    | ok u =>
      rw [ht] at h
      rw [ih ht]
      exact tick_strip h

/-- C7.  Ships exert no influence on planets: whenever N steps of a world
complete, N steps of the same world with every ship removed complete as well
and produce exactly the same planet list (positions, velocities, masses,
radii) after every one of the N steps, in particular after the last. -/
theorem claim_C7 (n : Nat) (w w2 : World) (h : tickN n w = .ok w2) :
    ∃ w3, tickN n (strip_ships w) = .ok w3 ∧ w3.planets = w2.planets :=
  ⟨strip_ships w2, tickN_strip h, rfl⟩

/-- Witness for C7: two ticks of `doom_world`. -/
theorem claim_C7_witness :
    ∃ w3, tickN 2 (strip_ships doom_world) = .ok w3 ∧
      w3.planets = doom_result.planets :=
  claim_C7 2 doom_world doom_result (by
    norm_num [tickN, tick, doom_world, doom_result, mkSpaceShip, simulate_ships,
      simulate_ships_go, ship_loop, distance, gravity_force, insideQ, copysign,
      process_waiting, removeFirst, tag_from, simulate_planets, planets_outer,
      planet_loop, move_planets])



/-- Inversion of a successful `sim_extend`. -/
lemma sim_extend_inv {l l2 : List World} (h : sim_extend l = .ok l2) :
    ∃ wl wn, l.getLast? = some wl ∧ tick wl = .ok wn ∧ l2 = l ++ [wn] := by
  unfold sim_extend at h
  cases hg : l.getLast? with
  | none => rw [hg] at h; cases h
  | some wl =>
    rw [hg] at h
    dsimp only at h
    cases ht : tick wl with
    | error e => rw [ht] at h; cases h
    | ok wn =>
      rw [ht] at h
      exact ⟨wl, wn, rfl, ht, (Except.ok.inj h).symm⟩

/-- Inversion of a successful `sim_tick`. -/
lemma sim_tick_inv {l l2 : List World} (h : sim_tick l = .ok l2) :
    ∃ wl wn, l.getLast? = some wl ∧ tick wl = .ok wn ∧ l2 = (l ++ [wn]).drop 1 := by
  unfold sim_tick at h
  cases he : sim_extend l with
  | error e => rw [he] at h; cases h
  | ok l3 =>
    rw [he] at h
    obtain ⟨wl, wn, hwl, ht, rfl⟩ := sim_extend_inv he
    exact ⟨wl, wn, hwl, ht, (Except.ok.inj h).symm⟩

/-- The buffer invariant: slot `i` holds the initial world stepped `k + i`
times. -/
def buffer_ok (w : World) (k : Nat) (l : List World) : Prop :=
  ∀ i, i < l.length → ∃ z, l.get? i = some z ∧ tickN (k + i) w = .ok z

lemma tickN_succ_of {n : Nat} {w u z : World} (h1 : tickN n w = .ok u)
    (h2 : tick u = .ok z) : tickN (n + 1) w = .ok z := by
  unfold tickN
  rw [h1]
  exact h2

lemma buffer_ok_last {w : World} {k m : Nat} {l : List World}
    (hlen : l.length = m + 1) (hb : buffer_ok w k l) :
    ∃ z, l.getLast? = some z ∧ tickN (k + m) w = .ok z := by
  obtain ⟨z, hz, ht⟩ := hb m (by omega)
  refine ⟨z, ?_, ht⟩
  rw [List.getLast?_eq_get?, hlen]
  simpa using hz

lemma buffer_ok_append {w wl wn : World} {k m : Nat} {l : List World}
    (hlen : l.length = m + 1) (hb : buffer_ok w k l)
    (hwl : l.getLast? = some wl) (ht : tick wl = .ok wn) :
    buffer_ok w k (l ++ [wn]) := by
  intro i hi
  rw [List.length_append] at hi
  by_cases hlt : i < l.length
  · obtain ⟨z, hz, htz⟩ := hb i hlt
    exact ⟨z, by rw [List.get?_append hlt]; exact hz, htz⟩
  · have heq : i = l.length := by simp at hi; omega
    subst heq
    refine ⟨wn, List.get?_concat_length l wn, ?_⟩
    obtain ⟨z, hz', ht'⟩ := buffer_ok_last hlen hb
    have hzw : z = wl := by
      rw [hz'] at hwl
      exact Option.some.inj hwl
    subst hzw
    rw [hlen]
    exact tickN_succ_of ht' ht

/-- `sim_init` builds a buffer of length `n + 1` satisfying the invariant. -/
lemma sim_init_spec {w : World} : ∀ {n : Nat} {l : List World},
    sim_init w n = .ok l → l.length = n + 1 ∧ buffer_ok w 0 l := by
  intro n
  induction n with
  | zero =>
    intro l h
    cases Except.ok.inj h
    refine ⟨rfl, ?_⟩
    intro i hi
    simp at hi
    have hi0 : i = 0 := by omega
    subst hi0
    exact ⟨w, rfl, rfl⟩
  | succ n ih =>
    intro l h
    unfold sim_init at h
    cases hs : sim_init w n with
    | error e => rw [hs] at h; cases h
    | ok l0 =>
      rw [hs] at h
      obtain ⟨hlen, hb⟩ := ih hs
      obtain ⟨wl, wn, hwl, ht, rfl⟩ := sim_extend_inv h
      constructor
      · simp [List.length_append, hlen]
      · exact buffer_ok_append hlen hb hwl ht

/-- One `sim_tick` keeps the length and advances the buffer by one tick. -/
lemma sim_tick_spec {w : World} {k m : Nat} {l l2 : List World}
    (hlen : l.length = m + 1) (hb : buffer_ok w k l)
    (h : sim_tick l = .ok l2) : l2.length = m + 1 ∧ buffer_ok w (k + 1) l2 := by
  obtain ⟨wl, wn, hwl, ht, rfl⟩ := sim_tick_inv h
  constructor
  · simp [List.length_drop, List.length_append, hlen]
  · intro i hi
    simp [List.length_drop, List.length_append, hlen] at hi
    rw [List.get?_drop]
    by_cases hlt : 1 + i < l.length
    · obtain ⟨z, hz, htz⟩ := hb (1 + i) hlt
      refine ⟨z, by rw [List.get?_append hlt]; exact hz, ?_⟩
      have : k + 1 + i = k + (1 + i) := by omega
      rw [this]
      exact htz
    · have heq : 1 + i = l.length := by omega
      rw [heq]
      refine ⟨wn, List.get?_concat_length l wn, ?_⟩
      obtain ⟨z, hz', ht'⟩ := buffer_ok_last hlen hb
      have hzw : z = wl := by
        rw [hz'] at hwl
        exact Option.some.inj hwl
      subst hzw
      have : k + 1 + i = (k + m) + 1 := by omega
      rw [this]
      exact tickN_succ_of ht' ht

/-- `sim_tickN` keeps the length and advances the buffer tick by tick. -/
lemma sim_tickN_spec {w : World} {k0 m : Nat} : ∀ {k : Nat} {l l2 : List World},
    l.length = m + 1 → buffer_ok w k0 l → sim_tickN k l = .ok l2 →
    l2.length = m + 1 ∧ buffer_ok w (k0 + k) l2 := by
  intro k
  induction k with
  | zero =>
    intro l l2 hlen hb h
    cases Except.ok.inj h
    exact ⟨hlen, hb⟩
  | succ k ih =>
    intro l l2 hlen hb h
    unfold sim_tickN at h
    cases hs : sim_tickN k l with
    | error e => rw [hs] at h; cases h
    | ok lmid =>
      rw [hs] at h
      obtain ⟨hlenm, hbm⟩ := ih hlen hb hs
      exact sim_tick_spec hlenm hbm h



/-- C5.  For any horizon H and any number k of advances that complete, the
resulting buffer still has H+1 slots, its last slot equals the original
initial world stepped exactly k + H times, and every slot is exactly one step
ahead of the slot before it, so the buffer never diverges from direct forward
simulation. -/
theorem claim_C5 (w : World) (H k : Nat) (l l2 : List World)
    (h1 : sim_init w H = .ok l) (h2 : sim_tickN k l = .ok l2) :
    l2.length = H + 1 ∧
    (∃ z, l2.getLast? = some z ∧ tickN (k + H) w = .ok z) ∧
    (∀ i a b, l2.get? i = some a → l2.get? (i + 1) = some b → tick a = .ok b) := by
  obtain ⟨hlen, hb⟩ := sim_init_spec h1
  obtain ⟨hlen2, hb2⟩ := sim_tickN_spec hlen hb h2
  rw [Nat.zero_add] at hb2
  refine ⟨hlen2, ?_, ?_⟩
  · obtain ⟨z, hz, ht⟩ := buffer_ok_last hlen2 hb2
    exact ⟨z, hz, ht⟩
  · intro i a b ha hbb
    have hi : i < l2.length := by
      rcases List.get?_eq_some.mp ha with ⟨hlt, _⟩
      exact hlt
    have hi1 : i + 1 < l2.length := by
      rcases List.get?_eq_some.mp hbb with ⟨hlt, _⟩
      exact hlt
    obtain ⟨z1, hz1, ht1⟩ := hb2 i hi
    obtain ⟨z2, hz2, ht2⟩ := hb2 (i + 1) hi1
    rw [ha] at hz1
    rw [hbb] at hz2
    cases Option.some.inj hz1
    cases Option.some.inj hz2
    rw [show k + (i + 1) = (k + i) + 1 from rfl] at ht2
    unfold tickN at ht2
    rw [ht1] at ht2
    exact ht2

/-- Witness for C5 at the empty world, horizon 1, one advance. -/
theorem claim_C5_witness :
    ([empty_world, empty_world] : List World).length = 1 + 1 ∧
    (∃ z, ([empty_world, empty_world] : List World).getLast? = some z ∧
      tickN (1 + 1) empty_world = .ok z) ∧
    (∀ i a b, ([empty_world, empty_world] : List World).get? i = some a →
      ([empty_world, empty_world] : List World).get? (i + 1) = some b →
      tick a = .ok b) :=
  claim_C5 empty_world 1 1 [empty_world, empty_world] [empty_world, empty_world]
    (by norm_num [sim_init, sim_extend, empty_world, tick, simulate_ships,
      simulate_ships_go, process_waiting, tag_from, simulate_planets,
      planets_outer, move_planets])
    (by norm_num [sim_tickN, sim_tick, sim_extend, empty_world, tick,
      simulate_ships, simulate_ships_go, process_waiting, tag_from,
      simulate_planets, planets_outer, move_planets])

/-- C6.  Construction with horizon H yields exactly H+1 snapshots; a
completing advance exposes slot 0 as the current world, the remaining H
entries (in order, nearest future first) as the predictions, and appends one
snapshot obtained by stepping a clone of the last entry, restoring the
internal length to H+1. -/
theorem claim_C6 (w : World) (H : Nat) (l l2 : List World)
    (h1 : sim_init w H = .ok l) (h2 : sim_tick l = .ok l2) :
    l.length = H + 1 ∧
    l2.length = H + 1 ∧
    (l.drop 1).length = H ∧
    (∃ c, current_world l = some c ∧ l.get? 0 = some c) ∧
    ∃ wl wn, l.getLast? = some wl ∧ tick wl = .ok wn ∧ l2 = l.drop 1 ++ [wn] := by
  obtain ⟨hlen, hb⟩ := sim_init_spec h1
  obtain ⟨wl, wn, hwl, ht, rfl⟩ := sim_tick_inv h2
  refine ⟨hlen, ?_, ?_, ?_, wl, wn, hwl, ht, ?_⟩
  · simp [List.length_drop, List.length_append, hlen]
  · simp [List.length_drop, hlen]
  · cases l with
    | nil => simp at hlen
    | cons c rest => exact ⟨c, rfl, rfl⟩
  · exact List.drop_append_of_le_length (by omega)



/-- Witness for C6: horizon 3 at the empty world: 4 snapshots, a 3-element
prediction window, and length restored to 4. -/
theorem claim_C6_witness :
    ([empty_world, empty_world, empty_world, empty_world] : List World).length = 3 + 1 ∧
    ([empty_world, empty_world, empty_world, empty_world] : List World).length = 3 + 1 ∧
    (([empty_world, empty_world, empty_world, empty_world] : List World).drop 1).length = 3 ∧
    (∃ c, current_world [empty_world, empty_world, empty_world, empty_world] = some c ∧
      ([empty_world, empty_world, empty_world, empty_world] : List World).get? 0 = some c) ∧
    ∃ wl wn, ([empty_world, empty_world, empty_world, empty_world] : List World).getLast? = some wl ∧
      tick wl = .ok wn ∧
      ([empty_world, empty_world, empty_world, empty_world] : List World) =
        ([empty_world, empty_world, empty_world, empty_world] : List World).drop 1 ++ [wn] :=
  claim_C6 empty_world 3 [empty_world, empty_world, empty_world, empty_world]
    [empty_world, empty_world, empty_world, empty_world]
    (by norm_num [sim_init, sim_extend, empty_world, tick, simulate_ships,
      simulate_ships_go, process_waiting, tag_from, simulate_planets,
      planets_outer, move_planets])
    (by norm_num [sim_tick, sim_extend, empty_world, tick, simulate_ships,
      simulate_ships_go, process_waiting, tag_from, simulate_planets,
      planets_outer, move_planets])



/-- Witness for C10: masses 2 and 3, positions (0,0) and (0,5). -/
theorem claim_C10_witness :
    ∃ f, gravity_force 2 3 (distance ((0 : ℚ), (0 : ℚ)) ((0 : ℚ), (5 : ℚ))) = .ok f ∧
      |f.1| = 2 * 3 / (distance ((0 : ℚ), (0 : ℚ)) ((0 : ℚ), (5 : ℚ))).vSq ∧
      |f.2| = 2 * 3 / (distance ((0 : ℚ), (0 : ℚ)) ((0 : ℚ), (5 : ℚ))).vSq ∧
      ((0 : ℚ) = 0 → f.1 = 2 * 3 / (distance ((0 : ℚ), (0 : ℚ)) ((0 : ℚ), (5 : ℚ))).vSq ∧ 0 < f.1) ∧
      ((0 : ℚ) = 5 → f.2 = 2 * 3 / (distance ((0 : ℚ), (0 : ℚ)) ((0 : ℚ), (5 : ℚ))).vSq ∧ 0 < f.2) :=
  claim_C10 (0, 0) (0, 5) 2 3 (by norm_num) (by norm_num) (by norm_num [Prod.ext_iff])

/-- Inversion of a successful `gravity_force`. -/
lemma gravity_force_ok {m1 m2 : ℚ} {d : XYValue} {f : ℚ × ℚ}
    (h : gravity_force m1 m2 d = .ok f) :
    d.vSq ≠ 0 ∧
      f = (copysign (1 / d.vSq * m1 * m2) d.x, copysign (1 / d.vSq * m1 * m2) d.y) := by
  unfold gravity_force at h
  by_cases hv : d.vSq = 0
  · rw [if_pos hv] at h
    cases h
  · rw [if_neg hv] at h
    exact ⟨hv, (Except.ok.inj h).symm⟩

lemma kick_total_nil (i : Nat) (p : Planet) : kick_total i p [] = (0, 0) := rfl

lemma kick_total_cons (i : Nat) (p : Planet) (j : Nat) (q : Planet)
    (rest : List (Nat × Planet)) :
    kick_total i p ((j, q) :: rest) =
      if i = j then kick_total i p rest
      else ((pair_kick p q).1 + (kick_total i p rest).1,
            (pair_kick p q).2 + (kick_total i p rest).2) := rfl

lemma kick_total_speed_irrel (i : Nat) (p : Planet) (s : ℚ × ℚ) :
    ∀ l, kick_total i { p with speed := s } l = kick_total i p l := by
  intro l
  induction l with
  | nil => rfl
  | cons jp rest ih =>
    obtain ⟨j, q⟩ := jp
    rw [kick_total_cons, kick_total_cons, ih]
    rfl

/-- What `planet_loop` does to the outer planet: position, mass and radius are
untouched and the speed gains exactly the sum of the per-pair kicks. -/
lemma planet_loop_spec : ∀ (l : List (Nat × Planet)) (i : Nat) (p1 p2 : Planet),
    planet_loop i l p1 = .ok p2 →
    p2.position = p1.position ∧ p2.mass = p1.mass ∧ p2.radius = p1.radius ∧
    p2.speed = (p1.speed.1 + (kick_total i p1 l).1,
                p1.speed.2 + (kick_total i p1 l).2) := by
  intro l
  induction l with
  | nil =>
    intro i p1 p2 h
    cases Except.ok.inj h
    refine ⟨rfl, rfl, rfl, ?_⟩
    simp [kick_total]
  | cons jp rest ih =>
    intro i p1 p2 h
    obtain ⟨j, q⟩ := jp
    unfold planet_loop at h
    by_cases hij : i = j
    · rw [if_pos hij] at h
      obtain ⟨h1, h2, h3, h4⟩ := ih i p1 p2 h
      refine ⟨h1, h2, h3, ?_⟩
      rw [h4, kick_total_cons, if_pos hij]
    · rw [if_neg hij] at h
      dsimp only at h
      cases hg : gravity_force p1.mass q.mass (distance q.position p1.position) with
      | error e => rw [hg] at h; cases h
      | ok f =>
        rw [hg] at h
        dsimp only at h
        by_cases hm : p1.mass = 0
        · rw [if_pos hm] at h
          cases h
        · rw [if_neg hm] at h
          obtain ⟨h1, h2, h3, h4⟩ := ih i _ p2 h
          obtain ⟨hv, hf⟩ := gravity_force_ok hg
          refine ⟨h1, h2, h3, ?_⟩
          rw [h4, kick_total_speed_irrel, kick_total_cons, if_neg hij]
          subst hf
          unfold pair_kick
          dsimp only
          rw [Prod.ext_iff]
          constructor <;> dsimp only <;> ring



/-- Elementwise description of the outer planet loop. -/
lemma planets_outer_spec {tagged : List (Nat × Planet)} :
    ∀ (todo : List (Nat × Planet)) (out : List Planet),
    planets_outer tagged todo = .ok out →
    out.length = todo.length ∧
    ∀ k jp, todo.get? k = some jp →
      ∃ p2, out.get? k = some p2 ∧ planet_loop jp.1 tagged jp.2 = .ok p2 := by
  intro todo
  induction todo with
  | nil =>
    intro out h
    cases Except.ok.inj h
    exact ⟨rfl, by intro k jp hk; cases hk⟩
  | cons ip rest ih =>
    intro out h
    obtain ⟨i, p⟩ := ip
    unfold planets_outer at h
    cases hl : planet_loop i tagged p with
    | error e => rw [hl] at h; cases h
    | ok p2 =>
      rw [hl] at h
      dsimp only at h
      cases hr : planets_outer tagged rest with
      | error e => rw [hr] at h; cases h
      | ok rest2 =>
        rw [hr] at h
        cases Except.ok.inj h
        obtain ⟨hlen, hidx⟩ := ih rest2 hr
        refine ⟨by simp [hlen], ?_⟩
        intro k jp hk
        cases k with
        | zero =>
          cases Option.some.inj hk
          exact ⟨p2, rfl, hl⟩
        | succ k =>
          exact hidx k jp hk

lemma tag_from_get? {α : Type} : ∀ (l : List α) (n k : Nat),
    (tag_from n l).get? k = (l.get? k).map (fun x => (n + k, x)) := by
  intro l
  induction l with
  | nil => intro n k; rfl
  | cons x rest ih =>
    intro n k
    cases k with
    | zero => simp [tag_from]
    | succ k =>
      show (tag_from (n + 1) rest).get? k = _
      rw [ih (n + 1) k]
      have hnk : n + 1 + k = n + (k + 1) := by omega
      simp only [hnk]
      rfl

/-- Inversion of a successful `simulate_planets`. -/
lemma simulate_planets_inv {planets out : List Planet}
    (h : simulate_planets planets = .ok out) :
    ∃ kicked, planets_outer (tag_from 0 planets) (tag_from 0 planets) = .ok kicked ∧
      out = move_planets kicked := by
  unfold simulate_planets at h
  cases ho : planets_outer (tag_from 0 planets) (tag_from 0 planets) with
  | error e => rw [ho] at h; cases h
  | ok kicked =>
    rw [ho] at h
    exact ⟨kicked, rfl, (Except.ok.inj h).symm⟩

/-- C1, amended.  In every completing step, planet i's velocity gains exactly
the sum, over all planets j with a different identity, of the per-axis force
`copysign(mass_i * mass_j / d², axis difference)` divided by planet i's own
mass — the same axis-sign law as the planet-ship force with no damping
factor. -/
theorem claim_C1_amended (w w2 : World) (h : tick w = .ok w2) (i : Nat) (p : Planet)
    (hp : w.planets.get? i = some p) :
    ∃ p2, w2.planets.get? i = some p2 ∧
      p2.speed = (p.speed.1 + (kick_total i p (tag_from 0 w.planets)).1,
                  p.speed.2 + (kick_total i p (tag_from 0 w.planets)).2) := by
  obtain ⟨s1, q, t, planets2, hs, hpw, hq, rfl⟩ := tick_inv h
  obtain ⟨kicked, hout, rfl⟩ := simulate_planets_inv hq
  obtain ⟨hlen, hidx⟩ := planets_outer_spec _ _ hout
  have htag : (tag_from 0 w.planets).get? i = some (0 + i, p) := by
    rw [tag_from_get?, hp]
    rfl
  obtain ⟨p2, hp2, hloop⟩ := hidx i (0 + i, p) htag
  rw [Nat.zero_add] at hloop
  obtain ⟨hpos, hmass, hrad, hspeed⟩ := planet_loop_spec _ _ _ _ hloop
  refine ⟨{ p2 with position := (p2.position.1 + p2.speed.1, p2.position.2 + p2.speed.2) }, ?_, ?_⟩
  · show (move_planets kicked).get? i = _
    unfold move_planets
    rw [List.get?_map, hp2]
    rfl
  · exact hspeed

/-- The two-planet world of the C1 counterexample, as a full world. -/
def c1_world : World :=
  { planets := c1_planets, spaceships := [], deferred_actions := [] }

/-- `c1_world` after one tick. -/
def c1_result : World :=
  { planets := [{ position := (1/5, 1/5), mass := 10, radius := 1, speed := (1/5, 1/5) },
                { position := (99/10, 1/10), mass := 20, radius := 1, speed := (-(1/10), 1/10) }],
    spaceships := [], deferred_actions := [] }

/-- The first planet of `c1_planets`. -/
def c1_p0 : Planet :=
  { position := (0, 0), mass := 10, radius := 1, speed := (0, 0) }

/-- Witness for the amended C1 at `c1_world`, planet 0. -/
theorem claim_C1_amended_witness :
    ∃ p2, c1_result.planets.get? 0 = some p2 ∧
      p2.speed = (c1_p0.speed.1 + (kick_total 0 c1_p0 (tag_from 0 c1_world.planets)).1,
                  c1_p0.speed.2 + (kick_total 0 c1_p0 (tag_from 0 c1_world.planets)).2) :=
  claim_C1_amended c1_world c1_result
    (by norm_num [tick, c1_world, c1_result, c1_planets, simulate_ships,
      simulate_ships_go, process_waiting, tag_from, simulate_planets,
      planets_outer, planet_loop, distance, gravity_force, copysign,
      move_planets])
    0 c1_p0 rfl



/-- The queue a single ship's planet loop appends: one entry (its identity)
per planet it is strictly inside of. -/
lemma ship_loop_queue {s : SpaceShip} {idx : Nat} :
    ∀ {ps : List Planet} {f0 f : ℚ × ℚ} {q0 q : List Nat},
    ship_loop s idx ps f0 q0 = .ok (f, q) →
    q = q0 ++ List.replicate
      (ps.countP fun p => insideQ p.radius (distance p.position s.position)) idx := by
  intro ps
  induction ps with
  | nil =>
    intro f0 f q0 q h
    obtain ⟨h1, h2⟩ := Prod.mk.inj (Except.ok.inj h)
    simp [h2.symm]
  | cons p rest ih =>
    intro f0 f q0 q h
    unfold ship_loop at h
    dsimp only at h
    cases hg : gravity_force p.mass s.mass (distance p.position s.position) with
    | error e => rw [hg] at h; cases h
    | ok force =>
      rw [hg] at h
      dsimp only at h
      by_cases hin : insideQ p.radius (distance p.position s.position) = true
      · rw [if_pos hin] at h
        rw [ih h]
        simp [List.countP_cons, hin, List.replicate_succ, List.append_assoc]
      · rw [if_neg hin] at h
        rw [ih h]
        simp [List.countP_cons, hin]

/-- `simulate_ships_go` keeps the ship count and produces exactly the queue
`qSpec` describes. -/
lemma simulate_ships_go_spec {planets : List Planet} :
    ∀ {ships : List SpaceShip} {idx : Nat} {ships2 : List SpaceShip} {q : List Nat},
    simulate_ships_go planets idx ships = .ok (ships2, q) →
    ships2.length = ships.length ∧ q = qSpec planets idx ships := by
  intro ships
  induction ships with
  | nil =>
    intro idx ships2 q h
    obtain ⟨h1, h2⟩ := Prod.mk.inj (Except.ok.inj h)
    simp [h1.symm, h2.symm, qSpec]
  | cons ship rest ih =>
    intro idx ships2 q h
    unfold simulate_ships_go at h
    dsimp only at h
    cases hsl : ship_loop
        { ship with position := (ship.position.1 + ship.speed.1, ship.position.2 + ship.speed.2) }
        idx planets (0, 0) [] with
    | error e => rw [hsl] at h; cases h
    | ok pair =>
      obtain ⟨f, q1⟩ := pair
      rw [hsl] at h
      dsimp only at h
      cases hgo : simulate_ships_go planets (idx + 1) rest with
      | error e => rw [hgo] at h; cases h
      | ok pr =>
        obtain ⟨rest2, q2⟩ := pr
        rw [hgo] at h
        obtain ⟨h1, h2⟩ := Prod.mk.inj (Except.ok.inj h)
        obtain ⟨hlen, hq2⟩ := ih hgo
        have hq1 : q1 = List.replicate (nInside planets ship) idx := ship_loop_queue hsl
        constructor
        · rw [h1.symm]
          simp [hlen]
        · rw [h2.symm, hq1, hq2]
          rfl

/-- Every tag queued for the ships numbered from `i` on is at least `i`. -/
lemma qSpec_tag_ge {planets : List Planet} :
    ∀ {ships : List SpaceShip} {i t : Nat}, t ∈ qSpec planets i ships → i ≤ t := by
  intro ships
  induction ships with
  | nil => intro i t ht; cases ht
  | cons s rest ih =>
    intro i t ht
    rw [qSpec] at ht
    rcases List.mem_append.mp ht with hl | hr
    · rw [List.eq_of_mem_replicate hl]
    · have := ih hr
      omega

/-- Every tag produced by `tag_from n` is at least `n`. -/
lemma tag_from_tag_ge {α : Type} :
    ∀ {l : List α} {n : Nat} (x : Nat × α), x ∈ tag_from n l → n ≤ x.1 := by
  intro l
  induction l with
  | nil => intro n x hx; cases hx
  | cons a rest ih =>
    intro n x hx
    rcases List.mem_cons.mp hx with h | h
    · rw [h]
    · have := ih x h
      omega

lemma tag_from_length {α : Type} : ∀ (l : List α) (n : Nat),
    (tag_from n l).length = l.length := by
  intro l
  induction l with
  | nil => intro n; rfl
  | cons a rest ih => intro n; simp [tag_from, ih]

lemma removeFirst_cons_ne {tag : Nat} {x : Nat × SpaceShip} {l l2 : List (Nat × SpaceShip)}
    (hx : x.1 ≠ tag) (h : removeFirst tag (x :: l) = .ok l2) :
    ∃ l3, removeFirst tag l = .ok l3 ∧ l2 = x :: l3 := by
  unfold removeFirst at h
  rw [if_neg hx] at h
  cases hr : removeFirst tag l with
  | error e => rw [hr] at h; cases h
  | ok l3 =>
    rw [hr] at h
    exact ⟨l3, rfl, (Except.ok.inj h).symm⟩

/-- `list.remove` on a list that does not hold the target raises. -/
lemma removeFirst_absent {tag : Nat} : ∀ {l : List (Nat × SpaceShip)},
    (∀ x ∈ l, x.1 ≠ tag) → removeFirst tag l = .error .valueError := by
  intro l
  induction l with
  | nil => intro _; rfl
  | cons x rest ih =>
    intro hall
    unfold removeFirst
    rw [if_neg (hall x (List.mem_cons_self x rest)), ih fun y hy => hall y (List.mem_cons_of_mem x hy)]

/-- Draining a queue none of whose tags is the head's identity keeps the head
and acts on the tail. -/
lemma process_waiting_cons_ne {s : Nat × SpaceShip} :
    ∀ {q : List Nat} {T r : List (Nat × SpaceShip)},
    (∀ t ∈ q, t ≠ s.1) → process_waiting q (s :: T) = .ok r →
    ∃ r2, process_waiting q T = .ok r2 ∧ r = s :: r2 := by
  intro q
  induction q with
  | nil =>
    intro T r _ h
    exact ⟨T, rfl, (Except.ok.inj h).symm⟩
  | cons t q ih =>
    intro T r hall h
    unfold process_waiting at h
    cases hr0 : removeFirst t (s :: T) with
    | error e => rw [hr0] at h; cases h
    | ok X =>
      rw [hr0] at h
      obtain ⟨T2, hT2, rfl⟩ :=
        removeFirst_cons_ne (Ne.symm (hall t (List.mem_cons_self t q))) hr0
      obtain ⟨r2, hp2, rfl⟩ :=
        ih (fun u hu => hall u (List.mem_cons_of_mem t hu)) h
      refine ⟨r2, ?_, rfl⟩
      unfold process_waiting
      rw [hT2]
      exact hp2



lemma doomed_iff {planets : List Planet} {s : SpaceShip} :
    doomed planets s = true ↔ 0 < nInside planets s := by
  unfold doomed nInside
  rw [List.any_eq_true, List.countP_pos]

/-- Draining exactly the queue the ship pass produced removes one ship per
doomed ship; it can only complete when no ship was queued twice. -/
lemma process_qSpec {planets : List Planet} :
    ∀ {ships ships2 : List SpaceShip} {i : Nat} {r : List (Nat × SpaceShip)},
    ships2.length = ships.length →
    process_waiting (qSpec planets i ships) (tag_from i ships2) = .ok r →
    r.length + ships.countP (doomed planets) = ships2.length := by
  intro ships
  induction ships with
  | nil =>
    intro ships2 i r hlen h
    have hr : r = tag_from i ships2 := (Except.ok.inj h).symm
    rw [hr, tag_from_length]
    simp
  | cons s rest ih =>
    intro ships2 i r hlen h
    cases ships2 with
    | nil => simp at hlen
    | cons s2 rest2 =>
      have hlen2 : rest2.length = rest.length := by simpa using hlen
      rw [show qSpec planets i (s :: rest) =
        List.replicate (nInside planets s) i ++ qSpec planets (i + 1) rest from rfl] at h
      rw [show tag_from i (s2 :: rest2) = (i, s2) :: tag_from (i + 1) rest2 from rfl] at h
      cases hn : nInside planets s with
      | zero =>
        rw [hn] at h
        rw [List.replicate_zero, List.nil_append] at h
        have hne : ∀ t ∈ qSpec planets (i + 1) rest, t ≠ ((i, s2) : Nat × SpaceShip).1 := by
          intro t ht
          have := qSpec_tag_ge ht
          simp only
          omega
        obtain ⟨r2, hp2, rfl⟩ := process_waiting_cons_ne hne h
        have hrec := ih hlen2 hp2
        have hdoom : doomed planets s = false := by
          rw [Bool.eq_false_iff]
          intro hcontra
          have := doomed_iff.mp hcontra
          omega
        rw [List.countP_cons]
        simp [hdoom]
        omega
      | succ m =>
        rw [hn, List.replicate_succ, List.cons_append] at h
        unfold process_waiting at h
        rw [show removeFirst i ((i, s2) :: tag_from (i + 1) rest2) =
          .ok (tag_from (i + 1) rest2) from by unfold removeFirst; rw [if_pos rfl]] at h
        cases m with
        | zero =>
          rw [List.replicate_zero, List.nil_append] at h
          have hrec := ih hlen2 h
          have hdoom : doomed planets s = true := doomed_iff.mpr (by omega)
          rw [List.countP_cons]
          simp [hdoom]
          omega
        | succ m2 =>
          rw [List.replicate_succ, List.cons_append] at h
          unfold process_waiting at h
          rw [removeFirst_absent (fun x hx => by
            have := tag_from_tag_ge x hx
            omega)] at h
          cases h

/-- C4.  Whenever a step of a world with no pending requests completes, the
ship count does not increase, and it drops by exactly the number of ships
that were strictly inside at least one planet's radius at the moment of the
test, each such ship counted once. -/
theorem claim_C4 (w w2 : World) (hd : w.deferred_actions = []) (h : tick w = .ok w2) :
    w2.spaceships.length ≤ w.spaceships.length ∧
    w2.spaceships.length + w.spaceships.countP (doomed w.planets) =
      w.spaceships.length := by
  obtain ⟨s1, q, t, p2, hs, hp, hq, rfl⟩ := tick_inv h
  rw [hd, List.nil_append] at hp
  obtain ⟨hlen1, rfl⟩ := simulate_ships_go_spec hs
  have hmain := process_qSpec hlen1 hp
  have hlmap : (List.map Prod.snd t).length = t.length := List.length_map t Prod.snd
  constructor
  · show (List.map Prod.snd t).length ≤ w.spaceships.length
    omega
  · show (List.map Prod.snd t).length + w.spaceships.countP (doomed w.planets) =
      w.spaceships.length
    omega

/-- Witness for C4 at `doom_world`: one ship inside one planet, destroyed. -/
theorem claim_C4_witness :
    doom_result.spaceships.length ≤ doom_world.spaceships.length ∧
    doom_result.spaceships.length +
      doom_world.spaceships.countP (doomed doom_world.planets) =
      doom_world.spaceships.length :=
  claim_C4 doom_world doom_result rfl (by
    norm_num [tick, doom_world, doom_result, mkSpaceShip, simulate_ships,
      simulate_ships_go, ship_loop, distance, gravity_force, insideQ, copysign,
      process_waiting, removeFirst, tag_from, simulate_planets, planets_outer,
      planet_loop, move_planets])



lemma gravity_force_total {m1 m2 : ℚ} {d : XYValue} (hv : d.vSq ≠ 0) :
    gravity_force m1 m2 d =
      .ok (copysign (1 / d.vSq * m1 * m2) d.x, copysign (1 / d.vSq * m1 * m2) d.y) := by
  unfold gravity_force
  rw [if_neg hv]

/-- The ship inner loop completes when the ship coincides with no planet. -/
lemma ship_loop_total (s : SpaceShip) (idx : Nat) :
    ∀ (ps : List Planet), (∀ p ∈ ps, p.position ≠ s.position) →
    ∀ (f0 : ℚ × ℚ) (q0 : List Nat), ∃ out, ship_loop s idx ps f0 q0 = .ok out := by
  intro ps
  induction ps with
  | nil => intro _ f0 q0; exact ⟨(f0, q0), rfl⟩
  | cons p rest ih =>
    intro hps f0 q0
    have hv : (distance p.position s.position).vSq ≠ 0 :=
      vSq_ne_zero (hps p (List.mem_cons_self p rest))
    unfold ship_loop
    dsimp only
    rw [gravity_force_total hv]
    exact ih (fun p2 hp2 => hps p2 (List.mem_cons_of_mem p hp2)) _ _

/-- The ship pass completes when no moved ship coincides with a planet. -/
lemma simulate_ships_go_total {planets : List Planet} :
    ∀ {ships : List SpaceShip} (idx : Nat),
    (∀ sh ∈ ships, ∀ p ∈ planets, p.position ≠ moved_position sh) →
    ∃ out, simulate_ships_go planets idx ships = .ok out := by
  intro ships
  induction ships with
  | nil => intro idx _; exact ⟨([], []), rfl⟩
  | cons ship rest ih =>
    intro idx hcl
    obtain ⟨⟨f, q1⟩, hsl⟩ :=
      ship_loop_total
        { ship with position := (ship.position.1 + ship.speed.1, ship.position.2 + ship.speed.2) }
        idx planets
        (fun p hp => hcl ship (List.mem_cons_self ship rest) p hp) (0, 0) []
    obtain ⟨⟨rest2, q2⟩, hgo⟩ :=
      ih (idx + 1) (fun sh hsh p hp => hcl sh (List.mem_cons_of_mem ship hsh) p hp)
    refine ⟨?_, ?_⟩
    · exact ({ ship with
          position := (ship.position.1 + ship.speed.1, ship.position.2 + ship.speed.2),
          speed := ((ship.speed.1 + f.1 : ℚ), (ship.speed.2 + f.2 : ℚ)) } :: rest2,
        q1 ++ q2)
    · unfold simulate_ships_go
      dsimp only
      rw [hsl]
      dsimp only
      rw [hgo]

/-- The planet inner loop completes for a planet of nonzero mass coinciding
with no differently-tagged planet. -/
lemma planet_loop_total (i : Nat) :
    ∀ (l : List (Nat × Planet)) (p1 : Planet), p1.mass ≠ 0 →
    (∀ jp ∈ l, jp.1 ≠ i → jp.2.position ≠ p1.position) →
    ∃ p2, planet_loop i l p1 = .ok p2 := by
  intro l
  induction l with
  | nil => intro p1 _ _; exact ⟨p1, rfl⟩
  | cons jp rest ih =>
    intro p1 hm hpos
    obtain ⟨j, q⟩ := jp
    unfold planet_loop
    by_cases hij : i = j
    · rw [if_pos hij]
      exact ih p1 hm (fun u hu => hpos u (List.mem_cons_of_mem (j, q) hu))
    · rw [if_neg hij]
      dsimp only
      have hv : (distance q.position p1.position).vSq ≠ 0 :=
        vSq_ne_zero (hpos (j, q) (List.mem_cons_self (j, q) rest) (fun hji => hij hji.symm))
      rw [gravity_force_total hv]
      dsimp only
      rw [if_neg hm]
      exact ih _ hm (fun u hu => hpos u (List.mem_cons_of_mem (j, q) hu))

/-- The planet pass completes under the same conditions for every planet. -/
lemma planets_outer_total {tagged : List (Nat × Planet)}
    (hcond : ∀ ip ∈ tagged, ip.2.mass ≠ 0 ∧
      ∀ jp ∈ tagged, jp.1 ≠ ip.1 → jp.2.position ≠ ip.2.position) :
    ∀ {todo : List (Nat × Planet)}, (∀ ip ∈ todo, ip ∈ tagged) →
    ∃ out, planets_outer tagged todo = .ok out := by
  intro todo
  induction todo with
  | nil => intro _; exact ⟨[], rfl⟩
  | cons ip rest ih =>
    intro hsub
    obtain ⟨i, p⟩ := ip
    obtain ⟨hm, hpos⟩ := hcond (i, p) (hsub (i, p) (List.mem_cons_self (i, p) rest))
    obtain ⟨p2, hl⟩ := planet_loop_total i tagged p hm hpos
    obtain ⟨rest2, hr⟩ := ih (fun u hu => hsub u (List.mem_cons_of_mem (i, p) hu))
    refine ⟨p2 :: rest2, ?_⟩
    unfold planets_outer
    rw [hl]
    dsimp only
    rw [hr]

lemma tag_from_mem {α : Type} :
    ∀ {l : List α} {n : Nat} {x : Nat × α}, x ∈ tag_from n l → x.2 ∈ l := by
  intro l
  induction l with
  | nil => intro n x hx; cases hx
  | cons a rest ih =>
    intro n x hx
    rcases List.mem_cons.mp hx with h | h
    · rw [h]; exact List.mem_cons_self a rest
    · exact List.mem_cons_of_mem a (ih h)

/-- `planets_distinct` gives distinct positions across distinct identities. -/
lemma planets_distinct_tags : ∀ {l : List Planet}, planets_distinct l = true →
    ∀ {n : Nat} (a b : Nat × Planet), a ∈ tag_from n l → b ∈ tag_from n l →
    a.1 ≠ b.1 → a.2.position ≠ b.2.position := by
  intro l
  induction l with
  | nil => intro _ n a b ha; cases ha
  | cons p rest ih =>
    intro hd n a b ha hb hne
    have hd2 : (rest.all fun q => decide (p.position ≠ q.position)) = true ∧
        planets_distinct rest = true := by
      simpa [planets_distinct, Bool.and_eq_true] using hd
    have hall : ∀ q ∈ rest, p.position ≠ q.position := by
      intro q hq
      have := List.all_eq_true.mp hd2.1 q hq
      simpa using this
    rcases List.mem_cons.mp ha with ha1 | ha2 <;> rcases List.mem_cons.mp hb with hb1 | hb2
    · rw [ha1, hb1] at hne; exact absurd rfl hne
    · rw [ha1]
      exact hall b.2 (tag_from_mem hb2)
    · rw [hb1]
      exact fun hcontra => hall a.2 (tag_from_mem ha2) hcontra.symm
    · exact ih hd2.2 a b ha2 hb2 hne

lemma removeFirst_cases (tag : Nat) :
    ∀ (l : List (Nat × SpaceShip)),
    removeFirst tag l = .error .valueError ∨ ∃ l2, removeFirst tag l = .ok l2 := by
  intro l
  induction l with
  | nil => exact Or.inl rfl
  | cons x rest ih =>
    by_cases hx : x.1 = tag
    · exact Or.inr ⟨rest, by unfold removeFirst; rw [if_pos hx]⟩
    · rcases ih with he | ⟨l2, hok⟩
      · refine Or.inl ?_
        unfold removeFirst
        rw [if_neg hx, he]
      · refine Or.inr ⟨x :: l2, ?_⟩
        unfold removeFirst
        rw [if_neg hx, hok]

/-- Draining the queue either completes or fails with `ValueError`; it never
raises a division error. -/
lemma process_waiting_cases :
    ∀ (q : List Nat) (T : List (Nat × SpaceShip)),
    process_waiting q T = .error .valueError ∨ ∃ r, process_waiting q T = .ok r := by
  intro q
  induction q with
  | nil => intro T; exact Or.inr ⟨T, rfl⟩
  | cons t rest ih =>
    intro T
    rcases removeFirst_cases t T with he | ⟨l2, hok⟩
    · refine Or.inl ?_
      unfold process_waiting
      rw [he]
    · have := ih l2
      unfold process_waiting
      rw [hok]
      exact this

/-- C9, amended.  When no two distinct planets coincide, every planet's mass
is nonzero and no planet sits exactly on any ship's post-integration
position, every division the step performs has a nonzero divisor: the step
can never fail with the division-by-zero error (though it may still abort
with the destruction-queue removal error). -/
theorem claim_C9_amended (w : World) (h1 : planets_distinct w.planets = true)
    (h2 : ships_clear w.planets w.spaceships = true)
    (h3 : masses_nonzero w.planets = true) :
    tick w ≠ .error .zeroDivision := by
  have hclear : ∀ sh ∈ w.spaceships, ∀ p ∈ w.planets, p.position ≠ moved_position sh := by
    intro sh hsh p hp
    have := List.all_eq_true.mp (List.all_eq_true.mp h2 sh hsh) p hp
    simpa using this
  obtain ⟨⟨ships1, queue⟩, hs⟩ := simulate_ships_go_total 0 hclear
  have hcond : ∀ ip ∈ tag_from 0 w.planets, ip.2.mass ≠ 0 ∧
      ∀ jp ∈ tag_from 0 w.planets, jp.1 ≠ ip.1 → jp.2.position ≠ ip.2.position := by
    intro ip hip
    constructor
    · have := List.all_eq_true.mp h3 ip.2 (tag_from_mem hip)
      simpa using this
    · intro jp hjp hne
      exact planets_distinct_tags h1 jp ip hjp hip hne
  obtain ⟨kicked, hout⟩ := planets_outer_total hcond (fun ip hip => hip)
  have hsp : simulate_planets w.planets = .ok (move_planets kicked) := by
    unfold simulate_planets
    rw [hout]
  rcases process_waiting_cases (w.deferred_actions ++ queue) (tag_from 0 ships1) with
    herr | ⟨r, hok⟩
  · unfold tick
    rw [show simulate_ships w.planets w.spaceships = .ok (ships1, queue) from hs]
    dsimp only
    rw [herr]
    simp
  · unfold tick
    rw [show simulate_ships w.planets w.spaceships = .ok (ships1, queue) from hs]
    dsimp only
    rw [hok]
    dsimp only
    rw [hsp]
    simp

/-- Witness for the amended C9 at `doom_world` (whose step completes). -/
theorem claim_C9_amended_witness :
    planets_distinct doom_world.planets = true ∧
    ships_clear doom_world.planets doom_world.spaceships = true ∧
    masses_nonzero doom_world.planets = true ∧
    tick doom_world ≠ .error .zeroDivision :=
  ⟨by norm_num [planets_distinct, doom_world],
   by norm_num [ships_clear, doom_world, moved_position, mkSpaceShip, Prod.ext_iff],
   by norm_num [masses_nonzero, doom_world],
   claim_C9_amended doom_world
     (by norm_num [planets_distinct, doom_world])
     (by norm_num [ships_clear, doom_world, moved_position, mkSpaceShip, Prod.ext_iff])
     (by norm_num [masses_nonzero, doom_world])⟩


end Pirx
